import Mathlib

/-!
# Verification of the video-segment processing server

A shallow embedding, in Lean 4, of the rendering-orchestration core of the
video-segment processing server: the progress normalizer, the transport
adapter (`downloadFile` / `uploadFile`), the merge entry point
(`mergeVideosWithTransition`), the segment processor (`processSegment`),
the video orchestrator (`processVideo`), the standalone segment queue
handler, and the orphaned-temp-directory sweep
(`cleanupOrphanedTempDirectories`).

Source functions are translated into pure Lean functions.  External
collaborators (the database, object storage, the network, the codec
engine, the filesystem) are modelled as oracle fields of explicit
environment structures, and each embedded function additionally returns a
trace of the externally visible effects it performs, in program order.
-/

namespace VideoServer

/-! ## Progress normalization (`logProgress`, ffmpeg-service)

The source keeps four module-level mutable variables
(`highestSeenPercentage`, `lastReportedPercent`, `consecutiveZeros`,
`inNewProcess`); `logProgress` mutates them and either prints a progress
bar line ("emits" the value) or returns without printing ("suppresses"
the reading).  We embed the mutable variables as an explicit state record
and return `some v` when the source prints value `v`, `none` when it
returns without printing. -/

structure ProgressState where
  highestSeenPercentage : Int
  lastReportedPercent : Int
  consecutiveZeros : Int
  inNewProcess : Bool
  deriving Repr, DecidableEq

/-- The initial values of the four module-level variables. -/
def initialProgressState : ProgressState :=
  { highestSeenPercentage := 0
    lastReportedPercent := 0
    consecutiveZeros := 0
    inNewProcess := false }

/-- The second half of `logProgress` (from the "Prevent backward progress
reporting" comment down): the backward-progress guard, the high-water-mark
update, and the significance check that decides whether to emit. -/
def progressEmitPhase (s : ProgressState) (vp0 : Int) : ProgressState × Option Int :=
  let vp :=
    if ¬ s.inNewProcess ∧ vp0 < s.highestSeenPercentage - 5 ∧ s.highestSeenPercentage > 10
    then s.lastReportedPercent
    else vp0
  let s :=
    if vp > s.highestSeenPercentage then { s with highestSeenPercentage := vp } else s
  if (vp - s.lastReportedPercent).natAbs < 2 ∧ vp ≠ 0 ∧ vp ≠ 100 then
    (s, none)
  else
    ({ s with lastReportedPercent := vp }, some vp)

/-- One call of `logProgress percent`: clamp the reading to `[0,100]`,
run the zero/phase-transition handling, then the emit phase.  The caller
(`createVideo` / `mergeVideosWithTransition` progress callbacks) already
floors and caps the raw percentage, and our inputs are integers, so
`Math.floor` is the identity here. -/
def logProgress (s : ProgressState) (percent : Int) : ProgressState × Option Int :=
  let validPercent := min (max percent 0) 100
  if validPercent = 0 then
    let cz := s.consecutiveZeros + 1
    if cz ≥ 2 ∧ s.lastReportedPercent ≥ 99 then
      progressEmitPhase
        { s with consecutiveZeros := cz, highestSeenPercentage := 0, inNewProcess := true }
        validPercent
    else if ¬ s.inNewProcess ∧ s.highestSeenPercentage > 50 then
      ({ s with consecutiveZeros := cz }, none)
    else
      progressEmitPhase { s with consecutiveZeros := cz } validPercent
  else
    progressEmitPhase { s with consecutiveZeros := 0, inNewProcess := false } validPercent

/-- Feed a whole sequence of raw readings through `logProgress`,
collecting the emitted values in order. -/
def runLogProgress (s : ProgressState) : List Int → ProgressState × List Int
  | [] => (s, [])
  | p :: ps =>
    let (s', out) := logProgress s p
    let (s'', outs) := runLogProgress s' ps
    (s'', (out.toList) ++ outs)

/-! ## Paths and URL validation

`config.paths` fixes `tempDir` (a host directory), with subdirectories
`processing`, `downloads` and `logs` under it.  We model paths as plain
strings joined with `/`. -/

/-- `path.join a b` for our purposes: join with a slash. -/
def pathJoin (a b : String) : String := a ++ "/" ++ b

/-- The temp root, `config.paths.tempDir`. -/
def tempDir : String := "temp"

/-- `path.join(config.paths.tempDir, config.paths.processingDir, key)`:
the per-job directory under the processing root. -/
def procDir (key : String) : String := pathJoin (pathJoin tempDir "processing") key

/-- `path.join(config.paths.tempDir, "downloads")`: the download-staging root. -/
def downloadsDir : String := pathJoin tempDir "downloads"

/-- Does string `s` start with `p`?  (Character-list implementation of
`String.startsWith`, used so that terms evaluate inside the kernel.) -/
def strStartsWith (s p : String) : Bool :=
  p.data.isPrefixOf s.data

/-- Split a character list at every occurrence of `c`. -/
def splitChar (c : Char) : List Char → List (List Char)
  | [] => [[]]
  | x :: xs =>
    let r := splitChar c xs
    if x = c then [] :: r
    else
      match r with
      | [] => [[x]]
      | h :: t => (x :: h) :: t

/-- `path.basename p`: the final component of a slash-separated path. -/
def basename (p : String) : String :=
  String.mk ((splitChar '/' p.data).getLastD p.data)

/-- `isValidUrl` (segment-processor): `new URL(urlString)` succeeds and
`url.protocol` is `http:` or `https:`.  We model the parse-and-check as a
scheme-prefix test: exactly the strings whose scheme is `http` or `https`
pass. -/
def isValidUrl (urlString : String) : Bool :=
  strStartsWith urlString ("http://") || strStartsWith urlString ("https://")

/-! ## Transport adapter: `downloadFile` (ffmpeg-service)

`downloadFile(url, filePath)` makes the downloads directory, stages the
fetched bytes at `downloads/{Date.now()}_{basename(filePath)}`, then
copies the staging file to `filePath` when the two paths differ.  It
performs `fetch(url)` unconditionally — there is no URL check inside
`downloadFile` — and catches every failure, returning `false`.  It never
deletes anything. -/

/-- Outcome of the global `fetch(url)` call, as the environment decides:
the call can reject (e.g. an unsupported URL scheme), resolve with
`response.ok` false, or resolve with a 2xx body. -/
inductive FetchOutcome where
  | throws
  | notOk
  | ok (content : String)
  deriving Repr, DecidableEq

/-- Environment for `downloadFile`: the network and the clock. -/
structure DlEnv where
  fetch : String → FetchOutcome
  now : Nat

/-- Externally visible effects of `downloadFile`, in program order.
`deleteFile` is included so that "never removes a file" is expressible;
the source contains no deletion call. -/
inductive DlEffect where
  | mkdirp (dir : String)
  | fetchCall (url : String)
  | writeFile (p : String) (content : String)
  | copyFile (src dst : String)
  | deleteFile (p : String)
  deriving Repr, DecidableEq

/-- The staging path `downloads/{Date.now()}_{basename(filePath)}`. -/
def stagingPath (env : DlEnv) (filePath : String) : String :=
  pathJoin downloadsDir (toString env.now ++ "_" ++ basename filePath)

/-- `downloadFile(url, filePath)`: returns the boolean result and the
effect trace. -/
def downloadFile (env : DlEnv) (url filePath : String) : Bool × List DlEffect :=
  let pre := [DlEffect.mkdirp downloadsDir, DlEffect.fetchCall url]
  match env.fetch url with
  | .throws => (false, pre)
  | .notOk => (false, pre)
  | .ok content =>
    let downloadPath := stagingPath env filePath
    let tr := pre ++ [DlEffect.writeFile downloadPath content]
    if downloadPath ≠ filePath then
      (true, tr ++ [DlEffect.copyFile downloadPath filePath])
    else
      (true, tr)

/-- Does a `downloadFile` effect write or copy onto path `p`? -/
def writesAt (p : String) : DlEffect → Bool
  | .writeFile q _ => q = p
  | .copyFile _ dst => dst = p
  | _ => false

/-! ## Transport adapter: `uploadFile` (storage-service)

`uploadFile(filePath, storageFileName)` reads the local file, computes
the storage path — the passed name when it starts with
`finalized-videos/`, otherwise `videos/` prepended — uploads with
`upsert: true` to that path, and returns the public URL for that path,
or `null` on any failure. -/

/-- The storage-path computation inside `uploadFile`. -/
def storagePathFor (storageFileName : String) : String :=
  if strStartsWith storageFileName ("finalized-videos/") then storageFileName
  else "videos/" ++ storageFileName

/-- Environment for `uploadFile`: the local file contents (none = read
throws), the storage backend's answer to the upload, and its public-URL
resolver. -/
structure UpEnv where
  readFile : String → Option String
  storeOk : String → Bool
  publicUrl : String → String

/-- Effects of `uploadFile`. -/
inductive UpEffect where
  | readFile (p : String)
  | storeObject (key : String) (content : String) (upsert : Bool)
  | getPublicUrl (key : String)
  deriving Repr, DecidableEq

/-- `uploadFile(filePath, storageFileName)`: result and trace. -/
def uploadFile (env : UpEnv) (filePath storageFileName : String) :
    Option String × List UpEffect :=
  match env.readFile filePath with
  | none => (none, [])
  | some content =>
    let storagePath := storagePathFor storageFileName
    let tr := [UpEffect.readFile filePath,
               UpEffect.storeObject storagePath content true]
    if env.storeOk storagePath then
      (some (env.publicUrl storagePath), tr ++ [UpEffect.getPublicUrl storagePath])
    else
      (none, tr)

/-! ## Merge entry point: `mergeVideosWithTransition` (ffmpeg-service)

The function first rejects an empty input list (`throw` before any
directory creation or engine call; the surrounding `catch` logs and
rethrows).  With exactly one input it runs a stream copy (`-c copy`);
with two or more it builds the `setpts`/`concat` filter graph and
re-encodes.  On engine success the temp output is copied to the
requested output path. -/

/-- Environment for a merge: whether the codec engine run succeeds. -/
structure MergeEnv where
  ffmpegOk : Bool

/-- Effects of `mergeVideosWithTransition`. -/
inductive MEffect where
  | mkdirp (dir : String)
  | ffmpegRun (inputs : List String) (streamCopy : Bool) (out : String)
  | copyFile (src dst : String)
  deriving Repr, DecidableEq

/-- `mergeVideosWithTransition(videoFiles, outputPath, transitionDuration)`:
`Except` result (an `error` is a rejected promise) and effect trace.
`transitionDuration` is accepted but, as in the source filter graph, does
not influence the constructed pipeline. -/
def mergeVideosWithTransition (env : MergeEnv) (videoFiles : List String)
    (outputPath : String) (transitionDuration : Int) :
    Except String Unit × List MEffect :=
  match videoFiles with
  | [] => (Except.error "No video files provided for merging", [])
  | _ :: rest =>
    let _ := transitionDuration
    let processingDir := pathJoin tempDir "processing"
    let logsDir := pathJoin tempDir "logs"
    let tempOutputPath := pathJoin processingDir (basename outputPath)
    let pre := [MEffect.mkdirp processingDir, MEffect.mkdirp logsDir]
    let streamCopy := rest.isEmpty
    let tr := pre ++ [MEffect.ffmpegRun videoFiles streamCopy tempOutputPath]
    if env.ffmpegOk then
      if tempOutputPath ≠ outputPath then
        (Except.ok (), tr ++ [MEffect.copyFile tempOutputPath outputPath])
      else
        (Except.ok (), tr)
    else
      (Except.error "ffmpeg merge failed", tr)

/-! ## Orphaned-temp-directory sweep (`cleanupOrphanedTempDirectories`,
cleanup-service)

The sweep walks the processing root, removing directories older than 24
hours, then the downloads root, removing entries (files or directories)
older than 24 hours, finally removing the downloads root itself when it
has become empty.  The whole body sits inside a single `try`/`catch`:
the function itself never throws, but an error thrown by `statSync` or
`rmSync` on one entry is only caught at that top level. -/

/-- A directory entry as `readdirSync`/`statSync` see it, together with
the environment's decision whether `statSync` or `rmSync` on it throws. -/
structure FsEntry where
  name : String
  isDir : Bool
  mtime : Int
  statFails : Bool
  rmFails : Bool
  deriving Repr, DecidableEq

/-- Environment for one sweep run: whether the roots exist, their entry
listings, and the current time.  `none` stands for a root whose
`existsSync` check is false. -/
structure SweepEnv where
  tempDirExists : Bool
  processingEntries : Option (List FsEntry)
  downloadsEntries : Option (List FsEntry)
  now : Int

/-- `MAX_AGE_MS = 24 * 60 * 60 * 1000`. -/
def MAX_AGE_MS : Int := 24 * 60 * 60 * 1000

/-- The processing-root loop condition: `stats.isDirectory() && now -
stats.mtimeMs > MAX_AGE_MS`. -/
def isOldProcessingEntry (now : Int) (e : FsEntry) : Bool :=
  e.isDir && now - e.mtime > MAX_AGE_MS

/-- The downloads-root loop condition: `now - stats.mtimeMs > MAX_AGE_MS`
(no directory check). -/
def isOldDownloadEntry (now : Int) (e : FsEntry) : Bool :=
  now - e.mtime > MAX_AGE_MS

/-- One root's `for` loop: stat each entry and remove the qualifying
ones.  Returns the paths removed, in order, and whether an entry's
`statSync`/`rmSync` threw — which ends the loop at that entry, the
remaining entries unvisited. -/
def sweepLoop (qualifies : FsEntry → Bool) (root : String) :
    List FsEntry → List String × Bool
  | [] => ([], false)
  | e :: es =>
    if e.statFails then ([], true)
    else if qualifies e then
      if e.rmFails then ([], true)
      else
        let (removed, threw) := sweepLoop qualifies root es
        (pathJoin root e.name :: removed, threw)
    else sweepLoop qualifies root es

/-- `cleanupOrphanedTempDirectories()`: returns the removed paths in
order and `true` when the run reached its final log line (no error was
caught).  The function is total — an entry failure is caught by the
single top-level `catch`, so nothing propagates to the caller, but the
catch also ends the whole sweep. -/
def cleanupOrphanedTempDirectories (env : SweepEnv) : List String × Bool :=
  if ¬ env.tempDirExists then ([], true)
  else
    let processingRoot := pathJoin tempDir "processing"
    let (procRemoved, procThrew) :=
      match env.processingEntries with
      | none => ([], false)
      | some items => sweepLoop (isOldProcessingEntry env.now) processingRoot items
    if procThrew then (procRemoved, false)
    else
      match env.downloadsEntries with
      | none => (procRemoved, true)
      | some items =>
        let (dlRemoved, dlThrew) :=
          sweepLoop (isOldDownloadEntry env.now) downloadsDir items
        if dlThrew then (procRemoved ++ dlRemoved, false)
        else
          let remaining := items.filter (fun e => ¬ isOldDownloadEntry env.now e)
          if remaining.isEmpty then
            (procRemoved ++ dlRemoved ++ [downloadsDir], true)
          else (procRemoved ++ dlRemoved, true)

/-! ## Shared effect language for the segment processor, the video
orchestrator and the queue handler -/

/-- The payload of one persisted `Segment`-row update: which of the two
written columns the update sets.  A field the update object does not
mention is `none`. -/
structure SegmentUpdate where
  videoURL : Option String
  status : Option String
  deriving Repr, DecidableEq

/-- Externally visible effects of the segment processor, the video
orchestrator and the queue handler, in program order. -/
inductive Effect where
  | mkdir (dir : String)
  | rmDir (dir : String)
  | download (url : String) (dest : String)
  | probeDuration (audioPath : String)
  | render (imagePath : String) (audioPath : String) (outPath : String)
  | upload (localPath : String) (storageFileName : String)
  | updateVideo (videoId : String) (status : String) (url : Option String)
  | updateSegment (segmentId : String) (upd : SegmentUpdate)
  | scheduleCleanupVideoFiles (videoId : String)
  | mergeCall (inputs : List String) (out : String)
  | popQueue
  | archive (msgId : Nat)
  deriving Repr, DecidableEq

/-- One step of the directory-liability fold: creating `d` makes it need
cleanup, an effect recognised by `cleans` discharges it. -/
def dirStep (d : String) (cleans : Effect → Bool) (need : Bool) (e : Effect) : Bool :=
  if e = Effect.mkdir d then true else if cleans e then false else need

/-- `true` when, at the end of the trace, directory `d` has been created
but neither removed nor covered by a scheduled cleanup since its last
creation. -/
def dirUnresolved (d : String) (cleans : Effect → Bool) (tr : List Effect) : Bool :=
  tr.foldl (dirStep d cleans) false

/-- Removing the directory is the only effect that cleans a
segment-scoped workspace. -/
def cleansSegDir (d : String) : Effect → Bool
  | .rmDir d' => d' = d
  | _ => false

/-- For the video workspace `temp/processing/{videoId}`, both a direct
removal and a scheduled `cleanupVideoFiles(videoId)` count: the scheduled
cleanup removes exactly that directory (plus the per-segment directories
and the downloads root), per cleanup-service. -/
def cleansVideoDir (vid : String) (d : String) : Effect → Bool
  | .rmDir d' => d' = d
  | .scheduleCleanupVideoFiles v => v = vid
  | _ => false

/-! ## Segment processor (`processSegment`, segment-processor)

`processSegment(segmentId)` reads the segment row, validates both asset
URLs, creates the workspace `temp/processing/{segmentId}`, downloads
both assets, probes the audio duration, renders the clip, uploads it as
`{storyId}/{segmentId}.mp4`, and returns the storage URL.  Every failure
is turned into `null` by the outer `catch`; the workspace removal sits
in a `finally`, so it runs on success and on failure alike.  The row's
`status`/`videoURL` are not touched here. -/

/-- The fields of a `Segment` row that `processSegment` selects.
`none` models a SQL `null`. -/
structure SegmentRow where
  imageURL : Option String
  audioURL : Option String
  storyId : String
  deriving Repr, DecidableEq

/-- Environment for `processSegment`: the database row, and the outcomes
of the download, probe, render and upload steps. -/
structure SegEnv where
  fetchRow : Option SegmentRow
  download : String → Bool
  audioDuration : Option Int
  renderOk : Bool
  upload : String → Option String

/-- The workspace `path.join(tempDir, processingDir, segmentId)`. -/
def segmentWorkspace (segmentId : String) : String := procDir segmentId

/-- The storage file name `${segment.storyId}/${segmentId}.mp4`. -/
def segmentClipName (storyId segmentId : String) : String :=
  storyId ++ "/" ++ segmentId ++ ".mp4"

/-- `processSegment(segmentId)`: result and effect trace.  A `throw`
inside the body reaches the outer `catch` (return `null`) after the
`finally` has removed the workspace; throws before the workspace is
created produce an empty trace.  The checks `!segment.imageURL` /
`!segment.audioURL` are JS truthiness tests, so a present-but-empty
string also fails them. -/
def processSegment (env : SegEnv) (segmentId : String) : Option String × List Effect :=
  match env.fetchRow with
  | none => (none, [])
  | some seg =>
    match seg.imageURL, seg.audioURL with
    | some iu, some au =>
      if iu = "" || au = "" then (none, [])
      else if ¬ (isValidUrl iu && isValidUrl au) then (none, [])
      else
        let dir := procDir segmentId
        let imagePath := pathJoin dir ("image.jpg")
        let audioPath := pathJoin dir ("audio.mp3")
        let videoPath := pathJoin dir ("output.mp4")
        let tr := [Effect.mkdir dir, Effect.mkdir downloadsDir,
                   Effect.download iu imagePath, Effect.download au audioPath]
        if ¬ (env.download iu && env.download au) then
          (none, tr ++ [Effect.rmDir dir])
        else
          let tr := tr ++ [Effect.probeDuration audioPath]
          match env.audioDuration with
          | none => (none, tr ++ [Effect.rmDir dir])
          | some _ =>
            let tr := tr ++ [Effect.render imagePath audioPath videoPath]
            if ¬ env.renderOk then (none, tr ++ [Effect.rmDir dir])
            else
              let videoFileName := segmentClipName seg.storyId segmentId
              let tr := tr ++ [Effect.upload videoPath videoFileName]
              match env.upload videoFileName with
              | none => (none, tr ++ [Effect.rmDir dir])
              | some url => (some url, tr ++ [Effect.rmDir dir])
    | _, _ => (none, [])

/-! ## Video orchestrator (`processVideo`, video-processor)

`processVideo(videoId)` loads the video row, marks it pending, loads the
story's segments, processes them one by one (creating a per-segment
directory and persisting each segment's outcome), cleans up the
directories accumulated so far in a `finally`, then downloads the clips
into a re-created `temp/processing/{videoId}` directory, merges them,
uploads the result and marks the video completed — with a fallback to
the first processed segment's clip when the merge throws.  Value-level
failures (a download returning `false`, an upload returning `null`)
exit early with the video marked failed.

`updateVideoStatus` catches its own errors and only includes `videoURL`
in the update object when it is truthy; we record each call as an
`updateVideo` effect.  `cleanupVideoFiles(videoId)` is fire-and-forget
(`.catch`-logged); we record it as a `scheduleCleanupVideoFiles` effect.
Note that the "final merged video" directory created in the merge phase
is `path.join(tempDir, processingDir, videoId)` — the same path as the
video workspace created before the segment loop. -/

/-- The fields of a `Video` row that `processVideo` selects. -/
structure VideoRow where
  storyId : Option String
  deriving Repr, DecidableEq

/-- One row of the segment listing (`id, sortedIndex`). -/
structure SegmentListing where
  id : String
  sortedIndex : Int
  deriving Repr, DecidableEq

/-- An element of `processedSegments`. -/
structure ProcessedSeg where
  id : String
  videoURL : String
  sortedIndex : Int
  deriving Repr, DecidableEq

/-- Environment for `processVideo`: the two database reads, the segment
processor (`Except.error` models `await processSegment` throwing), the
success of the per-segment completed-update, the download/merge/upload
outcomes. -/
structure VidEnv where
  fetchVideo : Option VideoRow
  fetchSegments : Option (List SegmentListing)
  procSeg : String → Except Unit (Option String)
  segUpdateOk : String → Bool
  download : String → Bool
  mergeOk : Bool
  upload : String → Option String

/-- How `processVideo` exits: one constructor per `return`/fall-through
site in the source. -/
inductive ExitKind where
  | videoFetchFailed
  | noStory
  | noSegments
  | failedSegments
  | noneProcessed
  | noClips
  | uploadFailed
  | success
  | fallback
  deriving Repr, DecidableEq

/-- The video workspace `path.join(tempDir, processingDir, videoId)`
(also re-created as the "final video" directory in the merge phase). -/
def videoWorkspace (videoId : String) : String := procDir videoId

/-- The segment loop of `processVideo`: for each segment, create its
directory, run `processSegment`, and persist the outcome.  Returns the
loop's effect trace, `processedSegments` (in loop order),
the per-segment directories pushed onto `tempDirectories` (in order),
and the final `hasFailedSegments` flag.

A successful `processSegment` result is pushed onto `processedSegments`
even when the subsequent completed-update fails (the source pushes after
the update attempt, unconditionally); a falsy (empty-string) result goes
the failure way, as `if (videoURL)` does. -/
def segLoop (env : VidEnv) : List SegmentListing →
    List Effect × List ProcessedSeg × List String × Bool
  | [] => ([], [], [], false)
  | seg :: rest =>
    let dir := procDir seg.id
    let (tr', ps, ds, hf) := segLoop env rest
    match env.procSeg seg.id with
    | .error () =>
      ([Effect.mkdir dir, Effect.updateSegment seg.id ⟨none, some "failed"⟩] ++ tr',
       ps, dir :: ds, true)
    | .ok none =>
      ([Effect.mkdir dir, Effect.updateSegment seg.id ⟨none, some "failed"⟩] ++ tr',
       ps, dir :: ds, true)
    | .ok (some url) =>
      if url = "" then
        ([Effect.mkdir dir, Effect.updateSegment seg.id ⟨none, some "failed"⟩] ++ tr',
         ps, dir :: ds, true)
      else
        ([Effect.mkdir dir,
          Effect.updateSegment seg.id ⟨some url, some "completed"⟩] ++ tr',
         ⟨seg.id, url, seg.sortedIndex⟩ :: ps, dir :: ds,
         if env.segUpdateOk seg.id then hf else true)

/-- Stable insertion into a list sorted by `sortedIndex`, modelling the
comparator `(a, b) => a.sortedIndex - b.sortedIndex`. -/
def insertByIndex (p : ProcessedSeg) : List ProcessedSeg → List ProcessedSeg
  | [] => [p]
  | q :: qs =>
    if p.sortedIndex < q.sortedIndex then p :: q :: qs else q :: insertByIndex p qs

/-- `processedSegments.sort((a, b) => a.sortedIndex - b.sortedIndex)`. -/
def sortProcessed : List ProcessedSeg → List ProcessedSeg
  | [] => []
  | p :: ps => insertByIndex p (sortProcessed ps)

/-- The clip-download loop of the merge phase: download each processed
segment's clip into the final video directory, skipping (with no
download) entries with a falsy URL, and collect the successfully
downloaded local paths in order. -/
def downloadLoop (env : VidEnv) (finalVideoDir : String) :
    List ProcessedSeg → List Effect × List String
  | [] => ([], [])
  | p :: ps =>
    let (tr, files) := downloadLoop env finalVideoDir ps
    if p.videoURL = "" then (tr, files)
    else
      let dest := pathJoin finalVideoDir ("segment_" ++ p.id ++ ".mp4")
      if env.download p.videoURL then
        (Effect.download p.videoURL dest :: tr, dest :: files)
      else
        (Effect.download p.videoURL dest :: tr, files)

/-- The merge phase of `processVideo` (everything from "Sort segments by
their sortedIndex" on), entered with the pre-merge trace `tr2` and a
nonempty `processedSegments`.  The degenerate `sorted = []` arm mirrors
the nonempty-check already performed by the caller and is unreachable:
`localFiles` can only be nonempty when `sorted` is. -/
def mergePhase (env : VidEnv) (videoId : String) (tr2 : List Effect)
    (processed : List ProcessedSeg) : Option String × List Effect × ExitKind :=
  let sorted := sortProcessed processed
  let finalVideoDir := videoWorkspace videoId
  let finalVideoPath := pathJoin finalVideoDir (videoId ++ ".mp4")
  let (dlTr, localFiles) := downloadLoop env finalVideoDir sorted
  let tr4 := tr2 ++ [Effect.mkdir finalVideoDir] ++ dlTr
  if localFiles.isEmpty then
    (none, tr4 ++ [Effect.updateVideo videoId "failed" none], ExitKind.noClips)
  else
    let tr5 := tr4 ++ [Effect.mergeCall localFiles finalVideoPath]
    if env.mergeOk then
      let finalizedName := "finalized-videos/" ++ videoId ++ ".mp4"
      let tr6 := tr5 ++ [Effect.upload finalVideoPath finalizedName]
      match env.upload finalizedName with
      | none =>
        (none, tr6 ++ [Effect.updateVideo videoId "failed" none], ExitKind.uploadFailed)
      | some url =>
        (some url,
         tr6 ++ [Effect.updateVideo videoId "completed" (some url),
                 Effect.scheduleCleanupVideoFiles videoId],
         ExitKind.success)
    else
      match sorted with
      | [] =>
        (none, tr5 ++ [Effect.updateVideo videoId "failed" none], ExitKind.noClips)
      | p0 :: _ =>
        let fallbackDir := procDir (videoId ++ "_fallback")
        let fallbackVideoPath := pathJoin fallbackDir ("segment_fallback.mp4")
        let trA := tr5 ++ [Effect.mkdir fallbackDir,
                           Effect.download p0.videoURL fallbackVideoPath]
        let trB :=
          if env.download p0.videoURL then
            trA ++ [Effect.upload fallbackVideoPath
                      ("finalized-videos/" ++ videoId ++ "_fallback.mp4")]
          else trA
        (none,
         trB ++ [Effect.updateVideo videoId "failed" (some p0.videoURL),
                 Effect.scheduleCleanupVideoFiles videoId],
         ExitKind.fallback)

/-- `processVideo(videoId)`: result, effect trace, and exit site.  The
function never rejects: the top-level `catch` (and the internal catches
of `updateVideoStatus`, `downloadFile`, `uploadFile`, `cleanupTempFiles`)
turn every failure into a `null` return. -/
def processVideo (env : VidEnv) (videoId : String) :
    Option String × List Effect × ExitKind :=
  match env.fetchVideo with
  | none =>
    (none, [Effect.updateVideo videoId "failed" none], ExitKind.videoFetchFailed)
  | some v =>
    match v.storyId with
    | none =>
      (none, [Effect.updateVideo videoId "failed" none], ExitKind.noStory)
    | some _storyId =>
      let tr0 : List Effect := [Effect.updateVideo videoId "pending" none]
      match env.fetchSegments with
      | none =>
        (none, tr0 ++ [Effect.updateVideo videoId "failed" none], ExitKind.noSegments)
      | some segments =>
        if segments.isEmpty then
          (none, tr0 ++ [Effect.updateVideo videoId "failed" none], ExitKind.noSegments)
        else
          let videoTempDir := videoWorkspace videoId
          let tr1 := tr0 ++ [Effect.mkdir videoTempDir]
          let (loopTr, processed, segDirs, hasFailed) := segLoop env segments
          let cleanupTr := (videoTempDir :: segDirs).map Effect.rmDir
          if hasFailed then
            (none,
             tr1 ++ loopTr ++ [Effect.updateVideo videoId "failed" none] ++ cleanupTr,
             ExitKind.failedSegments)
          else
            let tr2 := tr1 ++ loopTr ++ cleanupTr
            if processed.isEmpty then
              (none, tr2 ++ [Effect.updateVideo videoId "failed" none],
               ExitKind.noneProcessed)
            else
              mergePhase env videoId tr2 processed

/-! ## Standalone segment queue handler (process-segment handler)

The handler pops one message, validates that its payload is an object
with a truthy `segmentId`, runs `processSegment`, and on success updates
the segment row with `{ videoURL }` — only that field — before archiving
the message.  Malformed payloads and processing failures are archived
too; only a pop/setup error leaves the message unacknowledged. -/

/-- The payload of a popped queue message; `segmentId = none` models a
missing field. -/
structure HandlerPayload where
  segmentId : Option String
  deriving Repr, DecidableEq

/-- A popped message: its delivery id and its payload (`none` models a
missing or non-object `message`). -/
structure PoppedMessage where
  msgId : Nat
  message : Option HandlerPayload
  deriving Repr, DecidableEq

/-- Environment for the handler: client initialization, the queue pop
(`Except.error` = the RPC failed), the segment processor, and whether
the row update succeeds and returns rows. -/
structure HEnv where
  clientsOk : Bool
  pop : Except Unit (Option PoppedMessage)
  procSeg : String → Option String
  updateOk : Bool

/-- `handler()`: the HTTP status code of the response and the effect
trace. -/
def handler (env : HEnv) : Nat × List Effect :=
  if ¬ env.clientsOk then (500, [])
  else
    match env.pop with
    | .error () => (500, [Effect.popQueue])
    | .ok none => (200, [Effect.popQueue])
    | .ok (some q) =>
      match q.message with
      | none => (400, [Effect.popQueue, Effect.archive q.msgId])
      | some payload =>
        match payload.segmentId with
        | none => (400, [Effect.popQueue, Effect.archive q.msgId])
        | some sid =>
          if sid = "" then (400, [Effect.popQueue, Effect.archive q.msgId])
          else
            match env.procSeg sid with
            | none => (422, [Effect.popQueue, Effect.archive q.msgId])
            | some videoURL =>
              if videoURL = "" then (422, [Effect.popQueue, Effect.archive q.msgId])
              else
                let tr := [Effect.popQueue,
                           Effect.updateSegment sid ⟨some videoURL, none⟩]
                if env.updateOk then (200, tr ++ [Effect.archive q.msgId])
                else (422, tr ++ [Effect.archive q.msgId])

/-- All `Segment`-row update payloads occurring in a trace. -/
def segmentUpdates (tr : List Effect) : List SegmentUpdate :=
  tr.filterMap fun e =>
    match e with
    | .updateSegment _ u => some u
    | _ => none

/-- All `Video`-row updates for `vid` occurring in a trace, as
`(status, videoURL)` pairs. -/
def videoUpdates (vid : String) (tr : List Effect) : List (String × Option String) :=
  tr.filterMap fun e =>
    match e with
    | .updateVideo v st u => if v = vid then some (st, u) else none
    | _ => none

/-- Is this `downloadFile` effect a write of the given path? -/
def isWriteAt (q : String) : DlEffect → Bool
  | .writeFile r _ => r = q
  | _ => false

/-- Is this `downloadFile` effect a file deletion? -/
def isDelete : DlEffect → Bool
  | .deleteFile _ => true
  | _ => false

/-- The `updateSegment` payload leaves the two written columns in the
claimed correspondence: the update sets `videoURL` exactly when it sets
`status` to `completed`. -/
def updateConsistent (u : SegmentUpdate) : Bool :=
  u.videoURL.isSome == decide (u.status = some "completed")

/-- Does `statSync`/`rmSync` throw while the sweep handles this entry
under the given qualifying condition?  (`rmSync` is only reached for
qualifying entries.) -/
def entryFails (qualifies : FsEntry → Bool) (e : FsEntry) : Bool :=
  e.statFails || (qualifies e && e.rmFails)

/-- The URL the merge-fallback path falls back to: the first
successfully processed segment's clip URL in `sortedIndex` order
(`processedSegments[0].videoURL` after the sort). -/
def firstProcessedUrl (env : VidEnv) : Option String :=
  (sortProcessed (segLoop env ((env.fetchSegments).getD [])).2.1).head?.map
    ProcessedSeg.videoURL

/-! # Theorems

Helper lemmas first, then one theorem (plus counterexample/witness where
applicable) per specification claim. -/

theorem segmentUpdates_rmDir (d : String) (l : List Effect) :
    segmentUpdates (Effect.rmDir d :: l) = segmentUpdates l := rfl

theorem segmentUpdates_rmDirs (ds : List String) :
    segmentUpdates (ds.map Effect.rmDir) = [] := by
  induction ds with
  | nil => rfl
  | cons d ds ih => rw [List.map_cons, segmentUpdates_rmDir, ih]

theorem segmentUpdates_append (l₁ l₂ : List Effect) :
    segmentUpdates (l₁ ++ l₂) = segmentUpdates l₁ ++ segmentUpdates l₂ :=
  List.filterMap_append ..

theorem videoUpdates_append (vid : String) (l₁ l₂ : List Effect) :
    videoUpdates vid (l₁ ++ l₂) = videoUpdates vid l₁ ++ videoUpdates vid l₂ :=
  List.filterMap_append ..

theorem downloadLoop_segmentUpdates (env : VidEnv) (dir : String)
    (ps : List ProcessedSeg) : segmentUpdates (downloadLoop env dir ps).1 = [] := by
  induction ps with
  | nil => rfl
  | cons p ps ih =>
    simp only [downloadLoop]
    by_cases h0 : p.videoURL = "" <;>
      by_cases hd : env.download p.videoURL <;>
      simp [h0, hd, segmentUpdates, ih, segmentUpdates.eq_def] at ih ⊢ <;>
      simpa [segmentUpdates] using ih

theorem downloadLoop_videoUpdates (env : VidEnv) (vid dir : String)
    (ps : List ProcessedSeg) : videoUpdates vid (downloadLoop env dir ps).1 = [] := by
  induction ps with
  | nil => rfl
  | cons p ps ih =>
    simp only [downloadLoop]
    by_cases h0 : p.videoURL = "" <;>
      by_cases hd : env.download p.videoURL <;>
      simp [h0, hd, videoUpdates] at ih ⊢ <;>
      simpa [videoUpdates] using ih

theorem foldl_dirStep_downloadLoop (env : VidEnv) (vid d dir : String)
    (ps : List ProcessedSeg) (b : Bool) :
    List.foldl (dirStep d (cleansVideoDir vid d)) b (downloadLoop env dir ps).1 = b := by
  induction ps generalizing b with
  | nil => rfl
  | cons p ps ih =>
    simp only [downloadLoop]
    by_cases h0 : p.videoURL = "" <;>
      by_cases hd : env.download p.videoURL <;>
      simp [h0, hd, dirStep, cleansVideoDir, ih]

theorem foldl_dirStep_rmDirs (vid d : String) (ds : List String) :
    List.foldl (dirStep d (cleansVideoDir vid d)) false (ds.map Effect.rmDir) = false := by
  induction ds with
  | nil => rfl
  | cons x ds ih => simp [dirStep, cleansVideoDir, ih]

theorem foldl_dirStep_cleanup (vid : String) (segDirs : List String) (b : Bool) :
    List.foldl (dirStep (videoWorkspace vid) (cleansVideoDir vid (videoWorkspace vid))) b
      ((videoWorkspace vid :: segDirs).map Effect.rmDir) = false := by
  simp only [List.map_cons, List.foldl_cons]
  have h1 : dirStep (videoWorkspace vid) (cleansVideoDir vid (videoWorkspace vid)) b
      (Effect.rmDir (videoWorkspace vid)) = false := by
    simp [dirStep, cleansVideoDir]
  rw [h1]
  exact foldl_dirStep_rmDirs vid (videoWorkspace vid) segDirs

theorem segmentUpdates_mkdir (d : String) (l : List Effect) :
    segmentUpdates (Effect.mkdir d :: l) = segmentUpdates l := rfl

theorem segmentUpdates_updateSegment (s : String) (u : SegmentUpdate) (l : List Effect) :
    segmentUpdates (Effect.updateSegment s u :: l) = u :: segmentUpdates l := rfl

theorem segmentUpdates_updateVideo (v st : String) (u : Option String) (l : List Effect) :
    segmentUpdates (Effect.updateVideo v st u :: l) = segmentUpdates l := rfl

theorem segmentUpdates_mergeCall (i : List String) (o : String) (l : List Effect) :
    segmentUpdates (Effect.mergeCall i o :: l) = segmentUpdates l := rfl

theorem segmentUpdates_upload (p n : String) (l : List Effect) :
    segmentUpdates (Effect.upload p n :: l) = segmentUpdates l := rfl

theorem segmentUpdates_download (u p : String) (l : List Effect) :
    segmentUpdates (Effect.download u p :: l) = segmentUpdates l := rfl

theorem segmentUpdates_schedule (v : String) (l : List Effect) :
    segmentUpdates (Effect.scheduleCleanupVideoFiles v :: l) = segmentUpdates l := rfl

theorem segmentUpdates_nil : segmentUpdates [] = [] := rfl

theorem videoUpdates_mkdir (vid d : String) (l : List Effect) :
    videoUpdates vid (Effect.mkdir d :: l) = videoUpdates vid l := rfl

theorem videoUpdates_updateSegment (vid s : String) (u : SegmentUpdate) (l : List Effect) :
    videoUpdates vid (Effect.updateSegment s u :: l) = videoUpdates vid l := rfl

theorem videoUpdates_rmDir (vid d : String) (l : List Effect) :
    videoUpdates vid (Effect.rmDir d :: l) = videoUpdates vid l := rfl

theorem videoUpdates_download (vid u p : String) (l : List Effect) :
    videoUpdates vid (Effect.download u p :: l) = videoUpdates vid l := rfl

theorem videoUpdates_upload (vid p n : String) (l : List Effect) :
    videoUpdates vid (Effect.upload p n :: l) = videoUpdates vid l := rfl

theorem videoUpdates_mergeCall (vid : String) (i : List String) (o : String)
    (l : List Effect) :
    videoUpdates vid (Effect.mergeCall i o :: l) = videoUpdates vid l := rfl

theorem videoUpdates_schedule (vid v : String) (l : List Effect) :
    videoUpdates vid (Effect.scheduleCleanupVideoFiles v :: l) = videoUpdates vid l := rfl

theorem videoUpdates_nil (vid : String) : videoUpdates vid [] = [] := rfl

theorem videoUpdates_self (vid st : String) (u : Option String) (l : List Effect) :
    videoUpdates vid (Effect.updateVideo vid st u :: l) = (st, u) :: videoUpdates vid l := by
  simp [videoUpdates]

theorem segLoop_updates_consistent (env : VidEnv) (segs : List SegmentListing) :
    (segmentUpdates (segLoop env segs).1).all updateConsistent = true := by
  induction segs with
  | nil => rfl
  | cons s ss ih =>
    rcases hsl : segLoop env ss with ⟨tr', ps, ds, hf⟩
    rw [hsl] at ih
    cases hps : env.procSeg s.id with
    | error e =>
      cases e
      simp only [segLoop, hsl, hps]
      rw [List.cons_append, List.cons_append, List.nil_append,
        segmentUpdates_mkdir, segmentUpdates_updateSegment, List.all_cons, ih]
      rfl
    | ok r =>
      cases r with
      | none =>
        simp only [segLoop, hsl, hps]
        rw [List.cons_append, List.cons_append, List.nil_append,
          segmentUpdates_mkdir, segmentUpdates_updateSegment, List.all_cons, ih]
        rfl
      | some url =>
        by_cases h0 : url = ""
        · simp only [segLoop, hsl, hps, if_pos h0]
          rw [List.cons_append, List.cons_append, List.nil_append,
            segmentUpdates_mkdir, segmentUpdates_updateSegment, List.all_cons, ih]
          rfl
        · simp only [segLoop, hsl, hps, if_neg h0]
          rw [List.cons_append, List.cons_append, List.nil_append,
            segmentUpdates_mkdir, segmentUpdates_updateSegment, List.all_cons, ih]
          rfl

theorem segLoop_videoUpdates (env : VidEnv) (vid : String) (segs : List SegmentListing) :
    videoUpdates vid (segLoop env segs).1 = [] := by
  induction segs with
  | nil => rfl
  | cons s ss ih =>
    rcases hsl : segLoop env ss with ⟨tr', ps, ds, hf⟩
    rw [hsl] at ih
    cases hps : env.procSeg s.id with
    | error e =>
      cases e
      simp only [segLoop, hsl, hps]
      rw [List.cons_append, List.cons_append, List.nil_append,
        videoUpdates_mkdir, videoUpdates_updateSegment, ih]
    | ok r =>
      cases r with
      | none =>
        simp only [segLoop, hsl, hps]
        rw [List.cons_append, List.cons_append, List.nil_append,
          videoUpdates_mkdir, videoUpdates_updateSegment, ih]
      | some url =>
        by_cases h0 : url = ""
        · simp only [segLoop, hsl, hps, if_pos h0]
          rw [List.cons_append, List.cons_append, List.nil_append,
            videoUpdates_mkdir, videoUpdates_updateSegment, ih]
        · simp only [segLoop, hsl, hps, if_neg h0]
          rw [List.cons_append, List.cons_append, List.nil_append,
            videoUpdates_mkdir, videoUpdates_updateSegment, ih]

theorem mergePhase_segmentUpdates (env : VidEnv) (vid : String) (tr2 : List Effect)
    (processed : List ProcessedSeg) :
    segmentUpdates (mergePhase env vid tr2 processed).2.1 = segmentUpdates tr2 := by
  simp only [mergePhase]
  rcases hdl : downloadLoop env (videoWorkspace vid) (sortProcessed processed) with
    ⟨dlTr, localFiles⟩
  have hdlu : segmentUpdates dlTr = [] := by
    have h := downloadLoop_segmentUpdates env (videoWorkspace vid) (sortProcessed processed)
    rw [hdl] at h
    exact h
  by_cases hemp : localFiles.isEmpty
  · simp only [hdl, hemp, if_true, ite_true, segmentUpdates_append, hdlu,
      segmentUpdates_mkdir, segmentUpdates_updateVideo, segmentUpdates_nil,
      List.append_nil, List.nil_append]
  · by_cases hm : env.mergeOk
    · cases hu : env.upload ("finalized-videos/" ++ vid ++ ".mp4") <;>
        simp [hdl, hemp, hm, hu, segmentUpdates_append, hdlu,
          segmentUpdates_mkdir, segmentUpdates_updateVideo, segmentUpdates_upload,
          segmentUpdates_mergeCall, segmentUpdates_schedule, segmentUpdates_nil]
    · cases hs : sortProcessed processed with
      | nil =>
        simp only [hdl, hemp, hm, hs]
        simp [hdlu, segmentUpdates_append, segmentUpdates_mkdir,
          segmentUpdates_updateVideo, segmentUpdates_upload, segmentUpdates_mergeCall,
          segmentUpdates_schedule, segmentUpdates_nil]
      | cons p0 rest =>
        by_cases hd : env.download p0.videoURL <;>
          simp only [hdl, hemp, hm, hs, hd] <;>
          simp [hdlu, segmentUpdates_append, segmentUpdates_mkdir,
            segmentUpdates_updateVideo, segmentUpdates_upload, segmentUpdates_mergeCall,
            segmentUpdates_schedule, segmentUpdates_download, segmentUpdates_nil]

theorem mergePhase_unresolved (env : VidEnv) (vid : String) (tr2 : List Effect)
    (processed : List ProcessedSeg)
    (h2 : List.foldl (dirStep (videoWorkspace vid) (cleansVideoDir vid (videoWorkspace vid)))
            false tr2 = false) :
    dirUnresolved (videoWorkspace vid) (cleansVideoDir vid (videoWorkspace vid))
        (mergePhase env vid tr2 processed).2.1
      = (((mergePhase env vid tr2 processed).2.2 == ExitKind.noClips)
         || ((mergePhase env vid tr2 processed).2.2 == ExitKind.uploadFailed)) := by
  simp only [mergePhase]
  rcases hdl : downloadLoop env (videoWorkspace vid) (sortProcessed processed) with
    ⟨dlTr, localFiles⟩
  have hdlf : ∀ b : Bool,
      List.foldl (dirStep (videoWorkspace vid) (cleansVideoDir vid (videoWorkspace vid)))
        b dlTr = b := by
    intro b
    have h := foldl_dirStep_downloadLoop env vid (videoWorkspace vid) (videoWorkspace vid)
      (sortProcessed processed) b
    rw [hdl] at h
    exact h
  by_cases hemp : localFiles.isEmpty
  · simp [hdl, hemp, dirUnresolved, List.foldl_append, h2, hdlf, dirStep, cleansVideoDir]
  · by_cases hm : env.mergeOk
    · cases hu : env.upload ("finalized-videos/" ++ vid ++ ".mp4") <;>
        simp [hdl, hemp, hm, hu, dirUnresolved, List.foldl_append, h2, hdlf,
          dirStep, cleansVideoDir]
    · cases hs : sortProcessed processed with
      | nil =>
        simp [hdl, hemp, hm, hs, dirUnresolved, List.foldl_append, h2, hdlf,
          dirStep, cleansVideoDir]
      | cons p0 rest =>
        by_cases hd : env.download p0.videoURL <;>
          simp [hdl, hemp, hm, hs, hd, dirUnresolved, List.foldl_append, h2, hdlf,
            dirStep, cleansVideoDir]

/-- **C5, counterexample.**  The claim asserts that the two zeros that
follow the reading 90 start a new phase, resetting the high-water mark.
In the code the reset requires the last reported value to be ≥ 99; after
emitting 90 it is 90, so neither is the high-water mark reset to 0 nor
is the new-process flag raised after feeding `[0,0,0,50,90,0,0]` from
the initial state. -/
theorem progress_reset_after_90_refuted :
    ¬ ((runLogProgress initialProgressState [0, 0, 0, 50, 90, 0, 0]).1.highestSeenPercentage = 0
       ∨ (runLogProgress initialProgressState [0, 0, 0, 50, 90, 0, 0]).1.inNewProcess = true) := by
  decide

/-- **C5, amended.**  Feeding `[0,0,0,50,90,0,0,5,100]` to the progress
normalizer from its initial state emits the early zeros, then 50 and 90,
suppresses the two zeros after 90 as same-phase noise (the high-water
mark stays 90 — a reset would require a last report ≥ 99), suppresses
the 5 (replaced by the last good value 90, which is then within the
2-point reporting threshold), and finally emits 100: the emitted
sequence is exactly `[0,0,0,50,90,100]`. -/
theorem progress_sequence_behavior :
    runLogProgress initialProgressState [0, 0, 0, 50, 90, 0, 0, 5, 100]
      = ({ highestSeenPercentage := 100, lastReportedPercent := 100,
           consecutiveZeros := 0, inNewProcess := false }, [0, 0, 0, 50, 90, 100])
    ∧ (runLogProgress initialProgressState [0, 0, 0, 50, 90, 0, 0]).1.highestSeenPercentage = 90 := by
  decide

/-- **C7.**  `mergeVideosWithTransition` with an empty input list fails
immediately: it rejects with the contract-violation error, and its
effect trace is empty — no codec-engine invocation, no directory
creation, and no file written at the output path or anywhere in the
processing directory. -/
theorem merge_empty_input_fails (env : MergeEnv) (outputPath : String) (td : Int) :
    mergeVideosWithTransition env [] outputPath td
      = (Except.error "No video files provided for merging", []) := rfl

/-- **C8, counterexample.**  `uploadFile` does not store the object under
precisely the `storageFileName` the caller passed: a segment-clip name
such as `story1/seg1.mp4` (which does not start with
`finalized-videos/`) is stored under `videos/story1/seg1.mp4`. -/
theorem upload_key_exactness_refuted :
    ¬ (∀ (env : UpEnv) (filePath storageFileName key content : String) (upsert : Bool),
         UpEffect.storeObject key content upsert ∈ (uploadFile env filePath storageFileName).2 →
         key = storageFileName) := by
  intro h
  have hk := h ⟨fun _ => some "bytes", fun _ => true, fun k => k⟩ "f.mp4" "story1/seg1.mp4"
      "videos/story1/seg1.mp4" "bytes" true (by decide)
  exact absurd hk (by decide)

/-- **C8, amended.**  Every object `uploadFile` stores goes to the key
`storagePathFor storageFileName` (with overwrite allowed): names that
start with `finalized-videos/` — the finalized outputs
`finalized-videos/{videoId}.mp4` and `finalized-videos/{videoId}_fallback.mp4`
— are kept verbatim, while all other names, in particular the segment
clips `{storyId}/{segmentId}.mp4`, are stored under a `videos/`
prefix. -/
theorem upload_storage_key_convention :
    (∀ (env : UpEnv) (filePath storageFileName key content : String) (upsert : Bool),
        UpEffect.storeObject key content upsert ∈ (uploadFile env filePath storageFileName).2 →
        key = storagePathFor storageFileName ∧ upsert = true) ∧
    (∀ storageFileName : String,
        strStartsWith storageFileName ("finalized-videos/") = true →
        storagePathFor storageFileName = storageFileName) ∧
    (∀ storageFileName : String,
        strStartsWith storageFileName ("finalized-videos/") = false →
        storagePathFor storageFileName = "videos/" ++ storageFileName) := by
  refine ⟨?_, ?_, ?_⟩
  · intro env fp name key c u hmem
    unfold uploadFile at hmem
    cases hr : env.readFile fp with
    | none => rw [hr] at hmem; simp at hmem
    | some content =>
      rw [hr] at hmem
      by_cases hs : env.storeOk (storagePathFor name) <;>
        simp [hs] at hmem <;>
        exact ⟨hmem.1, hmem.2.2⟩
  · intro name h
    simp [storagePathFor, h]
  · intro name h
    simp [storagePathFor, h]

/-- Witness for `upload_storage_key_convention` at concrete names. -/
theorem upload_storage_key_convention_w :
    ("videos/st/s1.mp4" = storagePathFor "st/s1.mp4" ∧ true = true) ∧
    storagePathFor "finalized-videos/v1.mp4" = "finalized-videos/v1.mp4" ∧
    storagePathFor "st/s1.mp4" = "videos/" ++ "st/s1.mp4" :=
  ⟨upload_storage_key_convention.1 ⟨fun _ => some "b", fun _ => true, fun k => k⟩
      "f.mp4" "st/s1.mp4" "videos/st/s1.mp4" "b" true (by decide),
   upload_storage_key_convention.2.1 "finalized-videos/v1.mp4" (by decide),
   upload_storage_key_convention.2.2 "st/s1.mp4" (by decide)⟩

/-- **C6.**  For a segment row with present, valid http(s) image and
audio URLs, `processSegment` (which is total — every internal `throw`
is converted to a `null` return by its outer `catch`) creates the
segment workspace, and on every outcome — download failure, probe
failure, render failure, upload failure, or success — the workspace has
been removed again by the `finally` block when the call returns; a
non-`none` result is exactly the storage reference the upload
returned. -/
theorem processSegment_cleanup_unconditional :
    ∀ (env : SegEnv) (segmentId : String) (seg : SegmentRow) (iu au : String),
      env.fetchRow = some seg → seg.imageURL = some iu → seg.audioURL = some au →
      isValidUrl iu = true → isValidUrl au = true →
      Effect.mkdir (segmentWorkspace segmentId) ∈ (processSegment env segmentId).2 ∧
      dirUnresolved (segmentWorkspace segmentId)
          (cleansSegDir (segmentWorkspace segmentId)) (processSegment env segmentId).2 = false ∧
      ((processSegment env segmentId).1.isSome = true →
        (processSegment env segmentId).1
          = env.upload (segmentClipName seg.storyId segmentId)) := by
  intro env sid seg iu au hrow himg hau hvi hva
  have hiu : ¬ iu = "" := by
    intro hh; rw [hh] at hvi; exact absurd hvi (by decide)
  have hau' : ¬ au = "" := by
    intro hh; rw [hh] at hva; exact absurd hva (by decide)
  simp only [processSegment, hrow, himg, hau, segmentWorkspace]
  by_cases hd : (env.download iu && env.download au) = true
  · cases hdur : env.audioDuration with
    | none =>
      simp [hiu, hau', hvi, hva, hd, hdur, dirUnresolved, dirStep, cleansSegDir]
    | some dur =>
      by_cases hr : env.renderOk
      · cases hu : env.upload (segmentClipName seg.storyId sid) with
        | none =>
          simp [hiu, hau', hvi, hva, hd, hdur, hr, hu,
            dirUnresolved, dirStep, cleansSegDir]
        | some url =>
          simp [hiu, hau', hvi, hva, hd, hdur, hr, hu,
            dirUnresolved, dirStep, cleansSegDir]
      · simp [hiu, hau', hvi, hva, hd, hr, dirUnresolved, dirStep, cleansSegDir]
  · simp [hiu, hau', hvi, hva, hd, dirUnresolved, dirStep, cleansSegDir]

/-- Witness for `processSegment_cleanup_unconditional` at a concrete
fully successful environment. -/
theorem processSegment_cleanup_unconditional_w :
    Effect.mkdir (segmentWorkspace "s1")
      ∈ (processSegment ⟨some ⟨some "http://i", some "http://a", "st"⟩,
          fun _ => true, some 5, true, fun _ => some "http://clip"⟩ "s1").2 ∧
    dirUnresolved (segmentWorkspace "s1") (cleansSegDir (segmentWorkspace "s1"))
        (processSegment ⟨some ⟨some "http://i", some "http://a", "st"⟩,
          fun _ => true, some 5, true, fun _ => some "http://clip"⟩ "s1").2 = false ∧
    ((processSegment ⟨some ⟨some "http://i", some "http://a", "st"⟩,
          fun _ => true, some 5, true, fun _ => some "http://clip"⟩ "s1").1.isSome = true →
      (processSegment ⟨some ⟨some "http://i", some "http://a", "st"⟩,
          fun _ => true, some 5, true, fun _ => some "http://clip"⟩ "s1").1
        = (⟨some ⟨some "http://i", some "http://a", "st"⟩,
            fun _ => true, some 5, true, fun _ => some "http://clip"⟩ : SegEnv).upload
            (segmentClipName "st" "s1")) :=
  processSegment_cleanup_unconditional
    ⟨some ⟨some "http://i", some "http://a", "st"⟩,
      fun _ => true, some 5, true, fun _ => some "http://clip"⟩
    "s1" ⟨some "http://i", some "http://a", "st"⟩ "http://i" "http://a"
    rfl rfl rfl (by decide) (by decide)

/-- **C2, counterexample.**  Not every persisted segment update sets
`videoURL` together with `status = completed`: the standalone queue
handler, after a successful `processSegment`, updates the row with
`{ videoURL }` alone, leaving `status` untouched. -/
theorem segment_update_iff_refuted :
    ¬ ((∀ (env : VidEnv) (videoId : String),
          (segmentUpdates (processVideo env videoId).2.1).all updateConsistent = true) ∧
       (∀ (env : HEnv),
          (segmentUpdates (handler env).2).all updateConsistent = true)) := by
  intro h
  have hc := h.2 ⟨true, Except.ok (some ⟨1, some ⟨some "s1"⟩⟩), fun _ => some "http://u", true⟩
  exact absurd hc (by decide)

/-- **C2, amended.**  The Video Orchestrator's per-segment updates do
satisfy the correspondence (it writes `{videoURL, status: completed}`
on success and `{status: failed}` with no URL on failure), but the
standalone segment queue handler's post-success update sets `videoURL`
while leaving `status` unchanged (no `status` field at all). -/
theorem segment_update_status_correspondence :
    (∀ (env : VidEnv) (videoId : String),
        (segmentUpdates (processVideo env videoId).2.1).all updateConsistent = true) ∧
    (∀ (env : HEnv),
        (segmentUpdates (handler env).2).all
          (fun u => (u.status == none) && u.videoURL.isSome) = true) := by
  constructor
  · intro env vid
    cases hfv : env.fetchVideo with
    | none => simp [processVideo, hfv, segmentUpdates]
    | some v =>
      cases hst : v.storyId with
      | none => simp [processVideo, hfv, hst, segmentUpdates]
      | some st =>
        cases hfs : env.fetchSegments with
        | none => simp [processVideo, hfv, hst, hfs, segmentUpdates]
        | some segs =>
          by_cases hemp : segs.isEmpty
          · simp [processVideo, hfv, hst, hfs, hemp, segmentUpdates]
          · rcases hsl : segLoop env segs with ⟨loopTr, processed, segDirs, hasFailed⟩
            have hloop := segLoop_updates_consistent env segs
            rw [hsl] at hloop
            cases hasFailed with
            | true =>
              simp only [processVideo, hfv, hst, hfs, hemp, hsl, Bool.false_eq_true,
                if_false, ite_false, if_true, ite_true]
              simp [segmentUpdates_append, segmentUpdates_rmDirs, segmentUpdates_rmDir,
                segmentUpdates_mkdir, segmentUpdates_updateVideo, segmentUpdates_nil,
                hloop]
            | false =>
              by_cases hpe : processed.isEmpty
              · simp only [processVideo, hfv, hst, hfs, hemp, hsl]
                simp [hpe, segmentUpdates_append, segmentUpdates_rmDirs,
                  segmentUpdates_rmDir, segmentUpdates_mkdir, segmentUpdates_updateVideo,
                  segmentUpdates_nil, hloop]
              · simp only [processVideo, hfv, hst, hfs, hemp, hsl]
                simp only [hpe, Bool.false_eq_true, if_false, ite_false,
                  mergePhase_segmentUpdates]
                simp [segmentUpdates_append, segmentUpdates_rmDirs,
                  segmentUpdates_rmDir, segmentUpdates_mkdir, segmentUpdates_updateVideo,
                  segmentUpdates_nil, hloop]
  · intro env
    by_cases hc : env.clientsOk
    · cases hp : env.pop with
      | error e => cases e; simp [handler, hc, hp, segmentUpdates]
      | ok m =>
        cases m with
        | none => simp [handler, hc, hp, segmentUpdates]
        | some q =>
          cases hm : q.message with
          | none => simp [handler, hc, hp, hm, segmentUpdates]
          | some payload =>
            cases hsid : payload.segmentId with
            | none => simp [handler, hc, hp, hm, hsid, segmentUpdates]
            | some sid =>
              by_cases hs0 : sid = ""
              · simp [handler, hc, hp, hm, hsid, hs0, segmentUpdates]
              · cases hps : env.procSeg sid with
                | none => simp [handler, hc, hp, hm, hsid, hs0, hps, segmentUpdates]
                | some url =>
                  by_cases hu0 : url = ""
                  · simp [handler, hc, hp, hm, hsid, hs0, hps, hu0, segmentUpdates]
                  · by_cases hup : env.updateOk <;>
                      simp [handler, hc, hp, hm, hsid, hs0, hps, hu0, hup, segmentUpdates]
    · simp [handler, hc, segmentUpdates]

/-- **C1, counterexample.**  The video workspace
`temp/processing/{videoId}` is not removed or scheduled for removal on
every exit path of `processVideo`: when every segment processes but no
segment clip downloads successfully, the directory — re-created for the
merge phase after the segment-loop `finally` already cleaned it — is
left behind by the early `return` (the same happens when the merged
upload fails). -/
theorem video_workspace_cleanup_refuted :
    ¬ (∀ (env : VidEnv) (videoId : String),
         dirUnresolved (videoWorkspace videoId)
           (cleansVideoDir videoId (videoWorkspace videoId))
           (processVideo env videoId).2.1 = false) := by
  intro h
  have hc := h ⟨some ⟨some "st"⟩, some [⟨"s1", 0⟩],
      fun _ => Except.ok (some "http://u/1"),
      fun _ => true, fun _ => false, true, fun _ => none⟩ "v1"
  exact absurd hc (by decide)

/-- **C1, amended.**  The directories registered in `tempDirectories`
before the merge phase (the video workspace and the per-segment
directories) are removed by the `finally`-cleanup whenever the segment
loop exits; the video workspace is re-created as the final-merge
directory afterwards, and from then on it is removed or scheduled for
removal on the success, fallback, and loop-level exits — but on exactly
the two early returns where no segment clip downloads successfully
(`noClips`) or the upload of the merged output fails (`uploadFailed`),
the re-created directory is neither removed nor scheduled, and is left
to the orphan sweep. -/
theorem video_workspace_cleanup_characterization (env : VidEnv) (videoId : String) :
    dirUnresolved (videoWorkspace videoId)
        (cleansVideoDir videoId (videoWorkspace videoId)) (processVideo env videoId).2.1
      = (((processVideo env videoId).2.2 == ExitKind.noClips)
         || ((processVideo env videoId).2.2 == ExitKind.uploadFailed)) := by
  cases hfv : env.fetchVideo with
  | none => simp [processVideo, hfv, dirUnresolved, dirStep, cleansVideoDir]
  | some v =>
    cases hst : v.storyId with
    | none => simp [processVideo, hfv, hst, dirUnresolved, dirStep, cleansVideoDir]
    | some st =>
      cases hfs : env.fetchSegments with
      | none => simp [processVideo, hfv, hst, hfs, dirUnresolved, dirStep, cleansVideoDir]
      | some segs =>
        by_cases hemp : segs.isEmpty
        · simp [processVideo, hfv, hst, hfs, hemp, dirUnresolved, dirStep, cleansVideoDir]
        · rcases hsl : segLoop env segs with ⟨loopTr, processed, segDirs, hasFailed⟩
          cases hasFailed with
          | true =>
            simp only [processVideo, hfv, hst, hfs, hemp, hsl, Bool.false_eq_true,
              if_false, ite_false, if_true, ite_true]
            rw [dirUnresolved, List.foldl_append, List.foldl_append, List.foldl_append,
              foldl_dirStep_cleanup]
            rfl
          | false =>
            by_cases hpe : processed.isEmpty
            · simp only [processVideo, hfv, hst, hfs, hemp, hsl, hpe, Bool.false_eq_true,
                if_false, ite_false, if_true, ite_true]
              rw [dirUnresolved, List.foldl_append, List.foldl_append, List.foldl_append,
                foldl_dirStep_cleanup]
              simp [dirStep, cleansVideoDir]
            · simp only [processVideo, hfv, hst, hfs, hemp, hsl, hpe, Bool.false_eq_true,
                if_false, ite_false, if_true, ite_true]
              apply mergePhase_unresolved
              rw [List.foldl_append, List.foldl_append, foldl_dirStep_cleanup]

theorem mergePhase_fallback_shape (env : VidEnv) (vid : String) (tr2 : List Effect)
    (processed : List ProcessedSeg)
    (h : (mergePhase env vid tr2 processed).2.2 = ExitKind.fallback) :
    (mergePhase env vid tr2 processed).1 = none ∧
    ∃ p0 rest, sortProcessed processed = p0 :: rest ∧
      (videoUpdates vid (mergePhase env vid tr2 processed).2.1).getLast?
        = some ("failed", some p0.videoURL) := by
  revert h
  simp only [mergePhase]
  rcases hdl : downloadLoop env (videoWorkspace vid) (sortProcessed processed) with
    ⟨dlTr, localFiles⟩
  by_cases hemp : localFiles.isEmpty
  · simp [hemp]
  · by_cases hm : env.mergeOk
    · cases hu : env.upload ("finalized-videos/" ++ vid ++ ".mp4") <;> simp [hemp, hm, hu]
    · cases hs : sortProcessed processed with
      | nil => simp [hemp, hm, hs]
      | cons p0 rest =>
        by_cases hd : env.download p0.videoURL <;>
          simp only [hemp, hm, hs, hd, Bool.false_eq_true, if_false, ite_false,
            if_true, ite_true] <;>
          intro _ <;>
          refine ⟨trivial, p0, rest, rfl, ?_⟩ <;>
          rw [videoUpdates_append, videoUpdates_self, videoUpdates_schedule,
            videoUpdates_nil, List.getLast?_append_cons] <;>
          rfl

/-- **C4, counterexample.**  In the merge-fallback path, when the
fallback clip download fails, the Video row is *not* left without a URL:
the code still stores the first processed segment's URL together with
the `failed` status (the source even logs "will still update database
with URL"). -/
theorem fallback_no_url_refuted :
    ¬ (∀ (env : VidEnv) (videoId u : String),
         (processVideo env videoId).2.2 = ExitKind.fallback →
         Effect.download u
             (pathJoin (procDir (videoId ++ "_fallback")) ("segment_fallback.mp4"))
           ∈ (processVideo env videoId).2.1 →
         env.download u = false →
         (videoUpdates videoId (processVideo env videoId).2.1).getLast?
           = some ("failed", none)) := by
  intro h
  have hc := h ⟨some ⟨some "st"⟩, some [⟨"s1", 0⟩, ⟨"s2", 1⟩],
      fun sid => Except.ok (some ("http://u/" ++ sid)), fun _ => true,
      fun url => url == "http://u/s2", false, fun _ => none⟩ "v1" "http://u/s1"
      (by decide) (by decide) (by decide)
  exact absurd hc (by decide)

/-- **C4, amended.**  Whenever `processVideo` exits through the
merge-fallback path — whether or not the fallback download or upload
succeeded — the last Video-row update stores the `failed` status
*together with* the first processed segment's URL
(`firstProcessedUrl`), and the call resolves with `null`: the
originating merge error is not surfaced to the caller. -/
theorem fallback_stores_url_and_returns_null (env : VidEnv) (videoId : String)
    (h : (processVideo env videoId).2.2 = ExitKind.fallback) :
    (processVideo env videoId).1 = none ∧
    (firstProcessedUrl env).isSome = true ∧
    (videoUpdates videoId (processVideo env videoId).2.1).getLast?
      = some ("failed", firstProcessedUrl env) := by
  revert h
  cases hfv : env.fetchVideo with
  | none => simp [processVideo, hfv]
  | some v =>
    cases hst : v.storyId with
    | none => simp [processVideo, hfv, hst]
    | some st =>
      cases hfs : env.fetchSegments with
      | none => simp [processVideo, hfv, hst, hfs]
      | some segs =>
        by_cases hemp : segs.isEmpty
        · simp [processVideo, hfv, hst, hfs, hemp]
        · rcases hsl : segLoop env segs with ⟨loopTr, processed, segDirs, hasFailed⟩
          cases hasFailed with
          | true => simp [processVideo, hfv, hst, hfs, hemp, hsl]
          | false =>
            by_cases hpe : processed.isEmpty
            · simp [processVideo, hfv, hst, hfs, hemp, hsl, hpe]
            · simp only [processVideo, hfv, hst, hfs, hemp, hsl, hpe,
                Bool.false_eq_true, if_false, ite_false, if_true, ite_true]
              intro h
              obtain ⟨h1, p0, rest, hsort, hlast⟩ :=
                mergePhase_fallback_shape env videoId _ processed h
              have hfp : firstProcessedUrl env = some p0.videoURL := by
                rw [firstProcessedUrl, hfs, Option.getD_some, hsl]
                simp [hsort]
              exact ⟨h1, by rw [hfp]; rfl, by rw [hfp]; exact hlast⟩

/-- Witness for `fallback_stores_url_and_returns_null` at a concrete
environment whose merge throws and whose fallback download fails. -/
theorem fallback_stores_url_and_returns_null_w :
    (processVideo ⟨some ⟨some "st"⟩, some [⟨"s1", 0⟩, ⟨"s2", 1⟩],
        fun sid => Except.ok (some ("http://u/" ++ sid)), fun _ => true,
        fun url => url == "http://u/s2", false, fun _ => none⟩ "v1").1 = none ∧
    (firstProcessedUrl ⟨some ⟨some "st"⟩, some [⟨"s1", 0⟩, ⟨"s2", 1⟩],
        fun sid => Except.ok (some ("http://u/" ++ sid)), fun _ => true,
        fun url => url == "http://u/s2", false, fun _ => none⟩).isSome = true ∧
    (videoUpdates "v1" (processVideo ⟨some ⟨some "st"⟩, some [⟨"s1", 0⟩, ⟨"s2", 1⟩],
        fun sid => Except.ok (some ("http://u/" ++ sid)), fun _ => true,
        fun url => url == "http://u/s2", false, fun _ => none⟩ "v1").2.1).getLast?
      = some ("failed", firstProcessedUrl ⟨some ⟨some "st"⟩, some [⟨"s1", 0⟩, ⟨"s2", 1⟩],
          fun sid => Except.ok (some ("http://u/" ++ sid)), fun _ => true,
          fun url => url == "http://u/s2", false, fun _ => none⟩) :=
  fallback_stores_url_and_returns_null
    ⟨some ⟨some "st"⟩, some [⟨"s1", 0⟩, ⟨"s2", 1⟩],
      fun sid => Except.ok (some ("http://u/" ++ sid)), fun _ => true,
      fun url => url == "http://u/s2", false, fun _ => none⟩ "v1" (by decide)

/-- **C3, counterexample.**  `downloadFile` performs no URL validation of
its own: for the non-http(s) URL `ftp://example.com/a` it still issues
the `fetch` call (which then rejects), so the claimed
"no network fetch" part is false, even though the call does return
`false` and writes nothing at the destination. -/
theorem download_url_validation_refuted :
    ¬ (∀ (env : DlEnv) (url filePath : String), isValidUrl url = false →
         (downloadFile env url filePath).1 = false ∧
         DlEffect.fetchCall url ∉ (downloadFile env url filePath).2 ∧
         (downloadFile env url filePath).2.all (fun e => !(writesAt filePath e)) = true) := by
  intro h
  have hc := h ⟨fun _ => FetchOutcome.throws, 0⟩ "ftp://example.com/a" "out.mp4" (by decide)
  exact hc.2.1 (by decide)

/-- **C3, amended.**  When `fetch url` rejects — which is what happens
for a URL whose scheme is not http(s), including a missing scheme —
`downloadFile` returns `false` and its whole trace is the downloads-root
`mkdir` plus the attempted fetch: nothing is written at the destination
(or anywhere).  The before-any-network-call rejection of non-http(s)
URLs lives in the caller: `processSegment` checks `isValidUrl` and
returns `null` with an empty trace — no fetch at all — when an asset URL
is invalid. -/
theorem download_fetch_rejection_behavior :
    (∀ (env : DlEnv) (url filePath : String),
        env.fetch url = FetchOutcome.throws →
        downloadFile env url filePath
          = (false, [DlEffect.mkdirp downloadsDir, DlEffect.fetchCall url])) ∧
    (∀ (env : SegEnv) (segmentId : String) (seg : SegmentRow) (iu : String),
        env.fetchRow = some seg → seg.imageURL = some iu → isValidUrl iu = false →
        processSegment env segmentId = (none, [])) := by
  constructor
  · intro env url p h
    unfold downloadFile
    rw [h]
  · intro env sid seg iu hrow himg hvalid
    cases hau : seg.audioURL with
    | none => simp [processSegment, hrow, himg, hau]
    | some au => simp [processSegment, hrow, himg, hau, hvalid]

/-- Witness for `download_fetch_rejection_behavior` at a concrete
rejected URL and a concrete invalid-URL segment row. -/
theorem download_fetch_rejection_behavior_w :
    downloadFile ⟨fun _ => FetchOutcome.throws, 0⟩ "ftp://x" "out.mp4"
      = (false, [DlEffect.mkdirp downloadsDir, DlEffect.fetchCall "ftp://x"]) ∧
    processSegment ⟨some ⟨some "ftp://i", some "http://a", "st"⟩,
        fun _ => true, some 5, true, fun _ => some "u"⟩ "s1" = (none, []) :=
  ⟨download_fetch_rejection_behavior.1 ⟨fun _ => FetchOutcome.throws, 0⟩ "ftp://x" "out.mp4" rfl,
   download_fetch_rejection_behavior.2 ⟨some ⟨some "ftp://i", some "http://a", "st"⟩,
       fun _ => true, some 5, true, fun _ => some "u"⟩ "s1"
     ⟨some "ftp://i", some "http://a", "st"⟩ "ftp://i" rfl rfl (by decide)⟩

theorem sweepLoop_all_ok (qualifies : FsEntry → Bool) (root : String)
    (items : List FsEntry) (h : ∀ e ∈ items, entryFails qualifies e = false) :
    sweepLoop qualifies root items
      = ((items.filter qualifies).map (fun e => pathJoin root e.name), false) := by
  induction items with
  | nil => rfl
  | cons e es ih =>
    have he := h e (List.mem_cons_self e es)
    have hes : ∀ x ∈ es, entryFails qualifies x = false :=
      fun x hx => h x (List.mem_cons_of_mem e hx)
    have hstat : e.statFails = false := by
      revert he; unfold entryFails
      cases e.statFails <;> simp
    by_cases hq : qualifies e = true
    · have hrm : e.rmFails = false := by
        revert he; unfold entryFails
        rw [hq]
        cases e.rmFails <;> simp
      simp [sweepLoop, hstat, hq, hrm, ih hes, List.filter_cons]
    · simp [sweepLoop, hstat, hq, ih hes, List.filter_cons]

theorem sweepLoop_abort (qualifies : FsEntry → Bool) (root : String)
    (pre : List FsEntry) (bad : FsEntry) (post : List FsEntry)
    (hpre : ∀ e ∈ pre, entryFails qualifies e = false)
    (hbad : entryFails qualifies bad = true) :
    sweepLoop qualifies root (pre ++ bad :: post)
      = ((pre.filter qualifies).map (fun e => pathJoin root e.name), true) := by
  induction pre with
  | nil =>
    simp only [List.nil_append, List.filter_nil, List.map_nil]
    cases hstat : bad.statFails with
    | true => simp [sweepLoop, hstat]
    | false =>
      have hq : qualifies bad = true ∧ bad.rmFails = true := by
        revert hbad; unfold entryFails; rw [hstat]
        cases qualifies bad <;> cases bad.rmFails <;> simp
      simp [sweepLoop, hstat, hq.1, hq.2]
  | cons e es ih =>
    have he := hpre e (List.mem_cons_self e es)
    have hes : ∀ x ∈ es, entryFails qualifies x = false :=
      fun x hx => hpre x (List.mem_cons_of_mem e hx)
    have hstat : e.statFails = false := by
      revert he; unfold entryFails
      cases e.statFails <;> simp
    by_cases hq : qualifies e = true
    · have hrm : e.rmFails = false := by
        revert he; unfold entryFails
        rw [hq]
        cases e.rmFails <;> simp
      simp [sweepLoop, hstat, hq, hrm, ih hes, List.filter_cons]
    · simp [sweepLoop, hstat, hq, ih hes, List.filter_cons]

/-- **C9, counterexample.**  A failure while examining one entry does
abort the sweep of the remaining entries: with a first processing-root
entry whose `statSync` throws and a second, perfectly healthy orphaned
directory older than the threshold, the sweep removes nothing — the
healthy old directory is not removed — because the error is only caught
by the single top-level handler. -/
theorem sweep_entry_isolation_refuted :
    ¬ (∀ (env : SweepEnv) (items : List FsEntry) (e : FsEntry),
         env.tempDirExists = true →
         env.processingEntries = some items →
         e ∈ items → isOldProcessingEntry env.now e = true →
         e.statFails = false → e.rmFails = false →
         pathJoin (pathJoin tempDir "processing") e.name
           ∈ (cleanupOrphanedTempDirectories env).1) := by
  intro h
  have hc := h ⟨true, some [⟨"bad", true, 0, true, false⟩, ⟨"good", true, 0, false, false⟩],
      none, 2 * MAX_AGE_MS⟩
      [⟨"bad", true, 0, true, false⟩, ⟨"good", true, 0, false, false⟩]
      ⟨"good", true, 0, false, false⟩ rfl rfl (by decide) (by decide) rfl rfl
  exact absurd hc (by decide)

/-- **C9, amended.**  The sweep never throws to its caller (it is a
total function whose second component merely reports whether the single
top-level `catch` fired), and when no entry fails, every
processing-root entry older than the threshold is removed; but an entry
whose `statSync` or `rmSync` throws ends the whole run: the entries
after it are not examined or removed, the downloads root is not swept,
and the run reports the caught error. -/
theorem sweep_abort_semantics :
    (∀ (env : SweepEnv) (items : List FsEntry) (e : FsEntry),
        env.tempDirExists = true →
        env.processingEntries = some items →
        (∀ x ∈ items, entryFails (isOldProcessingEntry env.now) x = false) →
        e ∈ items → isOldProcessingEntry env.now e = true →
        pathJoin (pathJoin tempDir "processing") e.name
          ∈ (cleanupOrphanedTempDirectories env).1) ∧
    (∀ (env : SweepEnv) (pre : List FsEntry) (bad : FsEntry) (post : List FsEntry),
        env.tempDirExists = true →
        env.processingEntries = some (pre ++ bad :: post) →
        (∀ x ∈ pre, entryFails (isOldProcessingEntry env.now) x = false) →
        entryFails (isOldProcessingEntry env.now) bad = true →
        cleanupOrphanedTempDirectories env
          = ((pre.filter (isOldProcessingEntry env.now)).map
               (fun e => pathJoin (pathJoin tempDir "processing") e.name), false)) := by
  constructor
  · intro env items e hex hpe hall hmem hold
    have hswp := sweepLoop_all_ok (isOldProcessingEntry env.now)
        (pathJoin tempDir "processing") items hall
    cases hdl : env.downloadsEntries with
    | none =>
      simp [cleanupOrphanedTempDirectories, hex, hpe, hswp, hdl]
      exact ⟨e, ⟨hmem, hold⟩, rfl⟩
    | some dls =>
      rcases hsw : sweepLoop (isOldDownloadEntry env.now) downloadsDir dls with
        ⟨dlRemoved, dlThrew⟩
      cases dlThrew with
      | true =>
        simp [cleanupOrphanedTempDirectories, hex, hpe, hswp, hdl, hsw, List.mem_append]
        exact Or.inl ⟨e, ⟨hmem, hold⟩, rfl⟩
      | false =>
        simp only [cleanupOrphanedTempDirectories, hex, hpe, hswp, hdl, hsw,
          not_true, if_false, ite_false, Bool.false_eq_true, if_true, ite_true]
        split
        · exact List.mem_append_left [downloadsDir]
            (List.mem_append_left dlRemoved
              (List.mem_map_of_mem (fun x => pathJoin (pathJoin tempDir "processing") x.name)
                (List.mem_filter.mpr ⟨hmem, hold⟩)))
        · exact List.mem_append_left dlRemoved
            (List.mem_map_of_mem (fun x => pathJoin (pathJoin tempDir "processing") x.name)
              (List.mem_filter.mpr ⟨hmem, hold⟩))
  · intro env pre bad post hex hpe hpre hbad
    simp only [cleanupOrphanedTempDirectories, hex, hpe,
      sweepLoop_abort (isOldProcessingEntry env.now) (pathJoin tempDir "processing")
        pre bad post hpre hbad]
    simp

/-- Witness for `sweep_abort_semantics`: a healthy old directory is
removed when nothing fails, and a first-entry stat failure makes the
run remove nothing and report the caught error. -/
theorem sweep_abort_semantics_w :
    pathJoin (pathJoin tempDir "processing") "good"
      ∈ (cleanupOrphanedTempDirectories
          ⟨true, some [⟨"good", true, 0, false, false⟩], none, 2 * MAX_AGE_MS⟩).1 ∧
    cleanupOrphanedTempDirectories
        ⟨true, some [⟨"bad", true, 0, true, false⟩, ⟨"good", true, 0, false, false⟩],
          none, 2 * MAX_AGE_MS⟩
      = ([], false) :=
  ⟨sweep_abort_semantics.1
      ⟨true, some [⟨"good", true, 0, false, false⟩], none, 2 * MAX_AGE_MS⟩
      [⟨"good", true, 0, false, false⟩] ⟨"good", true, 0, false, false⟩
      rfl rfl (by decide) (by decide) (by decide),
   sweep_abort_semantics.2
      ⟨true, some [⟨"bad", true, 0, true, false⟩, ⟨"good", true, 0, false, false⟩],
        none, 2 * MAX_AGE_MS⟩
      [] ⟨"bad", true, 0, true, false⟩ [⟨"good", true, 0, false, false⟩]
      rfl rfl (by decide) (by decide)⟩

/-- **C10.**  `downloadFile` never deletes anything, and on success it
leaves the staging copy behind: the trace contains a write of the
fetched bytes at `downloads/{Date.now()}_{basename(destPath)}`
(`stagingPath`), no deletion of any file, and — when the staging path
differs from the destination — a copy from the staging path to the
destination.  The staging copy therefore persists after the call
returns, until the separate orphan sweep removes it. -/
theorem download_staging_copy_persists :
    ∀ (env : DlEnv) (url filePath : String),
      (downloadFile env url filePath).2.all (fun e => !(isDelete e)) = true ∧
      ((downloadFile env url filePath).1 = true →
        (downloadFile env url filePath).2.any (isWriteAt (stagingPath env filePath)) = true ∧
        (stagingPath env filePath ≠ filePath →
          (downloadFile env url filePath).2.any
            (fun e => e == DlEffect.copyFile (stagingPath env filePath) filePath) = true)) := by
  intro env url p
  unfold downloadFile
  cases h : env.fetch url with
  | throws => simp [isDelete]
  | notOk => simp [isDelete]
  | ok content =>
    by_cases hne : stagingPath env p ≠ p <;> simp [hne, isDelete, isWriteAt]

/-- Witness for `download_staging_copy_persists` at a successful concrete
download. -/
theorem download_staging_copy_persists_w :
    ((downloadFile ⟨fun _ => FetchOutcome.ok "bytes", 0⟩ "http://x" "out.mp4").2.any
        (isWriteAt (stagingPath ⟨fun _ => FetchOutcome.ok "bytes", 0⟩ "out.mp4")) = true) ∧
    ((downloadFile ⟨fun _ => FetchOutcome.ok "bytes", 0⟩ "http://x" "out.mp4").2.any
        (fun e => e == DlEffect.copyFile
            (stagingPath ⟨fun _ => FetchOutcome.ok "bytes", 0⟩ "out.mp4") "out.mp4") = true) :=
  ⟨((download_staging_copy_persists ⟨fun _ => FetchOutcome.ok "bytes", 0⟩ "http://x" "out.mp4").2
      (by decide)).1,
   ((download_staging_copy_persists ⟨fun _ => FetchOutcome.ok "bytes", 0⟩ "http://x" "out.mp4").2
      (by decide)).2 (by decide)⟩

end VideoServer
